import Mathlib

/-!
Shallow embedding of the DDPG agent of `src/rl/agents/ddpg.py` (repository
vzhuang/vinci), and proofs about its specification.

Modelling conventions:
* floating-point scalars are modelled as rationals (ℚ);
* a network's trainable parameters are a flat `List ℚ` (the agent only ever
  reads or writes whole weight lists via get_weights/set_weights);
* the external compute engine (TensorFlow session: forward passes, the Adam
  train ops, the gradient-norm metric) and the replay-buffer sampler are an
  `Oracle` of opaque functions, each taking exactly the tensors the source
  feeds into the corresponding session.run call;
* fatal failures (Python assertion errors, IndexError) are `Option.none`;
* configuration-time failures are `Except.error`.
-/

namespace DDPG

/-- A replay-buffer transition, mirroring `Experience(observation, action,
reward, observation_1, done)` appended in `DDPGAgent.backward`. -/
structure Experience where
  state0 : List ℚ
  action : List ℚ
  reward : ℚ
  state1 : List ℚ
  terminal1 : Bool
deriving Repr, DecidableEq

/-- A sampled mini-batch: parallel arrays, as exposed by `memory.sample`
(`batch.state0`, `batch.action`, `batch.reward`, `batch.state1`,
`batch.terminal1`). -/
structure Batch where
  state0 : List (List ℚ)
  action : List (List ℚ)
  reward : List ℚ
  state1 : List (List ℚ)
  terminal1 : List Bool
deriving Repr, DecidableEq

/-- The processed target-update parameter: `process_parameterization_variable`
returns a Python `int` (hard-update period) when the raw parameter is ≥ 1 and
a Python `float` (soft blend coefficient) otherwise. -/
inductive TargetUpdate where
  | hard (n : ℕ)
  | soft (tau : ℚ)
deriving Repr, DecidableEq

/-- The numeric value carried by a processed target-update parameter. -/
def TargetUpdate.value : TargetUpdate → ℚ
  | .hard n => n
  | .soft tau => tau

/-- `process_parameterization_variable` (ddpg.py line 608): raises ValueError
when the parameter is negative, truncates to an integer when the parameter is
at least 1 (hard update period), and keeps it as a float otherwise (soft blend
coefficient). Python `int()` truncates toward zero, which on values ≥ 1 is the
floor. -/
def process_parameterization_variable (param : ℚ) : Except String TargetUpdate :=
  if param < 0 then
    .error "target_model_update must be >= 0"
  else if param ≥ 1 then
    .ok (.hard param.floor.toNat)
  else
    .ok (.soft param)

/-- Constructor-time configuration of the agent (after the target-update
parameters have been processed). -/
structure AgentConfig where
  gamma : ℚ
  batchSize : ℕ
  trainInterval : ℕ
  memoryInterval : ℕ
  targetActorUpdate : TargetUpdate
  targetCriticUpdate : TargetUpdate
  actorResetThreshold : ℚ
  resetControlers : Bool
  hasRandomProcess : Bool
  nbActions : ℕ
  actionsLow : List ℚ
  actionsHigh : List ℚ
deriving Repr, DecidableEq

/-- Mutable state of the agent: live and target weights, replay buffer,
checkpoint log, metric cache, and the step/episode bookkeeping fields the
base agent class maintains. -/
structure AgentState where
  actorW : List ℚ
  criticW : List ℚ
  targetActorW : List ℚ
  targetCriticW : List ℚ
  memory : List Experience
  checkpoints : List (List ℚ × List ℚ)
  actorGradNormMetric : ℚ
  trainingStep : ℕ
  episode : ℕ
  observation : List ℚ
  action : List ℚ
  reward : ℚ
  observation1 : List ℚ
  done : Bool
  training : Bool
  exploration : Bool
deriving Repr, DecidableEq

/-- The external compute engine and replay-buffer sampler. Each field takes
exactly the tensors the source feeds into the corresponding `session.run`. -/
structure Oracle where
  /-- Batched forward pass of an actor-shaped network with the given weights
  on a batch of states. -/
  actorForward : List ℚ → List (List ℚ) → List (List ℚ)
  /-- Batched forward pass of a critic-shaped network with the given weights
  on a batch of (state, action) pairs; one scalar per sample. -/
  criticForward : List ℚ → List (List ℚ) → List (List ℚ) → List ℚ
  /-- `actor_train_op`: the Adam step on the actor weights; the graph reads
  the actor and critic weights and the fed state batch. -/
  actorStep : List ℚ → List ℚ → List (List ℚ) → List ℚ
  /-- `critic_train_op`: the Adam step on the critic weights; fed with
  state0, action and the critic regression targets. -/
  criticStep : List ℚ → List (List ℚ) → List (List ℚ) → List ℚ → List ℚ
  /-- The `actor/gradient_norm` metric, computed from the same graph inputs
  as the actor train op. -/
  actorGradNorm : List ℚ → List ℚ → List (List ℚ) → ℚ
  /-- `memory.sample(batch_size)`. -/
  sample : List Experience → ℕ → Batch
  /-- `random_process.sample()`. -/
  noiseSample : List ℚ
  /-- Weight-file contents at a path, for `load_weights`. -/
  loadW : String → List ℚ

/-- Modelled from the spec: `get_soft_target_model_ops` lives in
`rl/utils/model`, which is not part of the provided source; §4.2 of the spec
defines the soft update as `target = (1 - τ) * target + τ * live`, applied
independently per parameter. -/
def get_soft_target_model_ops (tau : ℚ) (target live : List ℚ) : List ℚ :=
  List.zipWith (fun t l => (1 - tau) * t + tau * l) target live

/-- `hard_update_target_actor` (line 335): overwrite the target actor weights
with the live actor weights. -/
def hard_update_target_actor (s : AgentState) : AgentState :=
  { s with targetActorW := s.actorW }

/-- `hard_update_target_critic` (line 331): overwrite the target critic
weights with the live critic weights. -/
def hard_update_target_critic (s : AgentState) : AgentState :=
  { s with targetCriticW := s.criticW }

/-- Modelled from the spec: `hard_update_target_models`, called by
`load_weights` (line 316), is defined in the base agent class which is not
part of the provided source; §6 of the spec says loading triggers an
immediate hard synchronization of both target networks to the freshly loaded
live networks. -/
def hard_update_target_models (s : AgentState) : AgentState :=
  hard_update_target_actor (hard_update_target_critic s)

/-- `checkpoint` (line 590): append the pair of live actor and critic weights
to the checkpoint log. -/
def checkpoint (s : AgentState) : AgentState :=
  { s with checkpoints := s.checkpoints ++ [(s.actorW, s.criticW)] }

/-- `restore_checkpoint` (line 595): read the checkpoint at `checkpoint_id`
(default 0); if `actor`, set live and target actor weights to the stored
actor weights; if `critic`, likewise for the critic. A missing index is a
fatal IndexError, modelled as `none`. -/
def restore_checkpoint (s : AgentState) (actor critic : Bool)
    (checkpoint_id : ℕ) : Option AgentState :=
  match s.checkpoints.get? checkpoint_id with
  | none => none
  | some (weights_actor, weights_critic) =>
    let s := if actor then
        { s with actorW := weights_actor, targetActorW := weights_actor }
      else s
    let s := if critic then
        { s with criticW := weights_critic, targetCriticW := weights_critic }
      else s
    some s

/-- `compile` (line 129): the target networks are cloned from the live
networks (the variable-initialization logic, per the comment at lines
164-166, ensures a network and its target begin with the same parameter
values), and the initial weights are saved by a `checkpoint()` call at line
178. Graph construction and summary collection have no weight effect. -/
def compile (s : AgentState) : AgentState :=
  checkpoint { s with targetActorW := s.actorW, targetCriticW := s.criticW }

/-- `np.clip(action, low, high)` with array bounds, elementwise: numpy
documents `clip` as `minimum(maximum(a, a_min), a_max)` applied per
component. -/
def np_clip : List ℚ → List ℚ → List ℚ → List ℚ
  | x :: xs, l :: ls, h :: hs => min (max x l) h :: np_clip xs ls hs
  | _, _, _ => []

/-- `select_action` (line 349): run the live actor on a singleton batch, take
sample 0, assert the action has shape `(nb_actions,)`; when exploring with a
configured random process, sample a noise vector, assert it has the action's
shape, and add it; finally clip elementwise to the declared action bounds.
Assertion failures (and an empty batch result) are fatal, modelled as
`none`. -/
def select_action (cfg : AgentConfig) (o : Oracle) (s : AgentState)
    (state : List ℚ) : Option (List ℚ) :=
  let batch_state := [state]
  match (o.actorForward s.actorW batch_state).head? with
  | none => none
  | some action =>
    if action.length = cfg.nbActions then
      let noisy : Option (List ℚ) :=
        if s.exploration ∧ cfg.hasRandomProcess then
          let noise := o.noiseSample
          if noise.length = action.length then
            some (List.zipWith (fun a n => a + n) action noise)
          else none
        else some action
      match noisy with
      | none => none
      | some action => some (np_clip action cfg.actionsLow cfg.actionsHigh)
    else none

/-- `forward` (line 372): thin wrapper around `select_action`. -/
def forward (cfg : AgentConfig) (o : Oracle) (s : AgentState)
    (observation : List ℚ) : Option (List ℚ) :=
  select_action cfg o s observation

/-- The critic regression targets of `fit_critic` (lines 542-545):
`critic_targets = batch.reward + gamma * target_q_values`, elementwise over
the batch. -/
def criticTargets (gamma : ℚ) (rewards target_q_values : List ℚ) : List ℚ :=
  List.zipWith (fun r q => r + gamma * q) rewards target_q_values

/-- `fit_critic` (line 510): compute the target-actor actions on
`batch.state1`, assert they have shape `(batch_size, nb_actions)`, compute
the target-critic Q values of `(batch.state1, target_actions)` (the
corresponding shape assertion at line 540 is commented out), build the
regression targets `reward + gamma * targetQ`, and run the critic train op
fed with `batch.state0`, `batch.action` and those targets. The summary
collection has no weight effect. -/
def fit_critic (cfg : AgentConfig) (o : Oracle) (s : AgentState)
    (batch : Batch) : Option AgentState :=
  let target_actions := o.actorForward s.targetActorW batch.state1
  if target_actions.length = cfg.batchSize ∧
      ∀ a ∈ target_actions, a.length = cfg.nbActions then
    let target_q_values :=
      o.criticForward s.targetCriticW batch.state1 target_actions
    let critic_targets := criticTargets cfg.gamma batch.reward target_q_values
    some { s with
      criticW := o.criticStep s.criticW batch.state0 batch.action critic_targets }
  else none

/-- The rollback trigger tested inside `fit_actor` (lines 582-584): the
`actor/gradient_norm` metric captured before the optimizer step is at most
`actor_reset_threshold`. -/
def rollback_condition (cfg : AgentConfig) (o : Oracle) (s : AgentState)
    (batch : Batch) : Bool :=
  o.actorGradNorm s.actorW s.criticW batch.state0 ≤ cfg.actorResetThreshold

/-- `fit_actor` (line 564): capture the `actor/gradient_norm` metric before
training, run the actor train op fed with `batch.state0`, and, when
`can_reset_actor` holds and the captured metric is at most the reset
threshold, restore the actor (and its target) from checkpoint index 0. -/
def fit_actor (cfg : AgentConfig) (o : Oracle) (s : AgentState)
    (batch : Batch) (can_reset_actor : Bool) : Option AgentState :=
  let gradNorm := o.actorGradNorm s.actorW s.criticW batch.state0
  let s1 : AgentState := { s with
    actorGradNormMetric := gradNorm,
    actorW := o.actorStep s.actorW s.criticW batch.state0 }
  if can_reset_actor then
    if gradNorm ≤ cfg.actorResetThreshold then
      restore_checkpoint s1 true false 0
    else some s1
  else some s1

/-- The target-network update block at the end of `fit_controllers` (lines
496-506), for one role: hard overwrite when the processed parameter is an
integer period and the eligibility flag holds; unconditional soft blend
otherwise. -/
def target_update_step (u : TargetUpdate) (hard_flag : Bool)
    (target live : List ℚ) : List ℚ :=
  match u with
  | .hard _ => if hard_flag then live else target
  | .soft tau => get_soft_target_model_ops tau target live

/-- The two conditional fit steps of `fit_controllers` (lines 486-494):
critic first, then actor. -/
def run_fits (cfg : AgentConfig) (o : Oracle) (s : AgentState) (batch : Batch)
    (fitCritic fitActor can_reset_actor : Bool) : Option AgentState :=
  (if fitCritic then fit_critic cfg o s batch else some s).bind
    (fun s1 => if fitActor then fit_actor cfg o s1 batch can_reset_actor
               else some s1)

/-- The target-network update block of `fit_controllers` (lines 496-506):
actor target first, then critic target, each reading the post-fit live
weights. -/
def apply_target_updates (cfg : AgentConfig) (s : AgentState)
    (hard_update_critic hard_update_actor : Bool) : AgentState :=
  let s : AgentState := { s with
    targetActorW :=
      target_update_step cfg.targetActorUpdate hard_update_actor
        s.targetActorW s.actorW }
  { s with
    targetCriticW :=
      target_update_step cfg.targetCriticUpdate hard_update_critic
        s.targetCriticW s.criticW }

/-- `fit_controllers` (line 464): when at least one network is to be fitted,
sample a batch, fit the critic then the actor as requested, then run the
target-network update block for both roles. -/
def fit_controllers (cfg : AgentConfig) (o : Oracle) (s : AgentState)
    (fitCritic fitActor can_reset_actor : Bool)
    (hard_update_critic hard_update_actor : Bool) : Option AgentState :=
  if ¬ (fitActor ∨ fitCritic) then some s
  else
    (run_fits cfg o s (o.sample s.memory cfg.batchSize)
        fitCritic fitActor can_reset_actor).map
      (fun s1 => apply_target_updates cfg s1 hard_update_critic
        hard_update_actor)

/-- Observer: whether the checkpoint rollback inside `fit_actor` fires during
a `run_fits` call with these arguments (the actor is fitted, reset
eligibility holds, and the `actor/gradient_norm` metric captured on the
post-critic-fit state is at most the threshold). -/
def fits_rollback_fires (cfg : AgentConfig) (o : Oracle) (s : AgentState)
    (batch : Batch) (fitCritic fitActor can_reset_actor : Bool) : Bool :=
  fitActor && can_reset_actor &&
    (match (if fitCritic then fit_critic cfg o s batch else some s) with
     | none => false
     | some s1 => rollback_condition cfg o s1 batch)

/-- The hard-update eligibility computed in `backward` (lines 400-408):
`training_step % target_update == 0` when the processed parameter is an
integer period, `False` otherwise. -/
def hardUpdateFlag (u : TargetUpdate) (step : ℕ) : Bool :=
  match u with
  | .hard n => step % n = 0
  | .soft _ => false

/-- The actor-reset eligibility computed in `backward` (lines 410-414):
the episode just ended, the episode number is a multiple of 5, and the
reset-on-collapse feature is enabled. -/
def canResetActor (cfg : AgentConfig) (s : AgentState) : Bool :=
  s.done && decide (s.episode % 5 = 0) && cfg.resetControlers

/-- The memory-append step of `backward` (lines 386-390): when
`training_step % memory_interval == 0`, append the just-observed transition
to the replay buffer. -/
def memoryStep (cfg : AgentConfig) (s : AgentState) : AgentState :=
  if s.trainingStep % cfg.memoryInterval = 0 then
    { s with memory := s.memory ++
        [⟨s.observation, s.action, s.reward, s.observation1, s.done⟩] }
  else s

/-- `backward` (line 378): a no-op unless training; append to memory on the
memory cadence; on the train cadence, decide warm-up gating, hard-update
eligibility and reset eligibility, and invoke `fit_controllers` when at
least one of the fit flags holds. -/
def backward (cfg : AgentConfig) (o : Oracle) (s : AgentState)
    (warmup_actor warmup_critic : ℕ) : Option AgentState :=
  if ¬ s.training then some s
  else
    let s := memoryStep cfg s
    if s.trainingStep % cfg.trainInterval = 0 then
      let fitCritic := decide (s.trainingStep > warmup_critic)
      let fitActor := decide (s.trainingStep > warmup_actor)
      let huta := hardUpdateFlag cfg.targetActorUpdate s.trainingStep
      let hutc := hardUpdateFlag cfg.targetCriticUpdate s.trainingStep
      if fitActor ∨ fitCritic then
        fit_controllers cfg o s fitCritic fitActor (canResetActor cfg s)
          hutc huta
      else some s
    else some s

/-- `backward_offline` (line 424): like `backward` but with no memory append
and caller-chosen fit flags. -/
def backward_offline (cfg : AgentConfig) (o : Oracle) (s : AgentState)
    (fitActor fitCritic : Bool) : Option AgentState :=
  if ¬ s.training then some s
  else
    if s.trainingStep % cfg.trainInterval = 0 then
      let huta := hardUpdateFlag cfg.targetActorUpdate s.trainingStep
      let hutc := hardUpdateFlag cfg.targetCriticUpdate s.trainingStep
      if fitActor ∨ fitCritic then
        fit_controllers cfg o s fitCritic fitActor (canResetActor cfg s)
          hutc huta
      else some s
    else some s

/-- Observer: whether a `backward` call with these arguments reaches
`fit_controllers` with at least one fit flag set (the spec's "a training call
where at least one network is fitted"). -/
def backwardFits (cfg : AgentConfig) (s : AgentState) (wa wc : ℕ) : Bool :=
  s.training && decide (s.trainingStep % cfg.trainInterval = 0) &&
    (decide (s.trainingStep > wa) || decide (s.trainingStep > wc))

/-- Observer: whether the checkpoint rollback fires during a `backward` call
with these arguments: the call trains, the actor is fitted, reset
eligibility (`done`, `episode % 5 == 0`, `reset_controlers`) holds, and the
`actor/gradient_norm` metric captured before the actor optimizer step is at
most `actor_reset_threshold`. -/
def backwardRollbackFires (cfg : AgentConfig) (o : Oracle) (s : AgentState)
    (wa wc : ℕ) : Bool :=
  let s1 := memoryStep cfg s
  s1.training && decide (s1.trainingStep % cfg.trainInterval = 0) &&
    fits_rollback_fires cfg o s1 (o.sample s1.memory cfg.batchSize)
      (decide (s1.trainingStep > wc)) (decide (s1.trainingStep > wa))
      (canResetActor cfg s1)

/-- Modelled from the spec: the training-step counter is owned by the base
agent class (not part of the provided source) and, per §3 of the spec, is
monotonic and incremented per environment interaction. `backwardSteps` runs
`n` consecutive `backward` calls, incrementing the counter after each. -/
def backwardSteps (cfg : AgentConfig) (o : Oracle) (s : AgentState)
    (warmup_actor warmup_critic : ℕ) : ℕ → Option AgentState
  | 0 => some s
  | n + 1 =>
    match backward cfg o s warmup_actor warmup_critic with
    | none => none
    | some s1 =>
      backwardSteps cfg o { s1 with trainingStep := s1.trainingStep + 1 }
        warmup_actor warmup_critic n

/-- Python `str.rfind`: index of the last occurrence of a character, or -1
when absent. -/
def pyRfind (cs : List Char) (c : Char) : ℤ :=
  let j := cs.reverse.indexOf c
  if j < cs.length then (cs.length : ℤ) - 1 - j else -1

/-- `os.path.splitext` (posix): split at the last dot, provided it lies after
the last path separator and the basename does not consist solely of leading
dots up to it. -/
def splitext (p : String) : String × String :=
  let cs := p.data
  let sepIndex := pyRfind cs '/'
  let dotIndex := pyRfind cs '.'
  if dotIndex > sepIndex then
    if (List.range cs.length).any (fun i =>
        decide (sepIndex < (i : ℤ)) && decide ((i : ℤ) < dotIndex) &&
        decide (cs.get? i ≠ some '.')) then
      (⟨cs.take dotIndex.toNat⟩, ⟨cs.drop dotIndex.toNat⟩)
    else (p, "")
  else (p, "")

/-- `load_weights` (line 310): derive the two role-suffixed paths from the
base path, load the actor and critic live weights from them, then hard-sync
both target networks. Returns the new state together with the two derived
paths (the observable file accesses). -/
def load_weights (o : Oracle) (s : AgentState) (filepath : String) :
    AgentState × String × String :=
  let fe := splitext filepath
  let actor_filepath := fe.1 ++ "_actor" ++ fe.2
  let critic_filepath := fe.1 ++ "_critic" ++ fe.2
  let s : AgentState := { s with
    actorW := o.loadW actor_filepath,
    criticW := o.loadW critic_filepath }
  (hard_update_target_models s, actor_filepath, critic_filepath)

/-- The operations the environment-interaction loop can invoke on a compiled
agent: the two training entry points, and the base-class bookkeeping that
records the latest transition and counters before each `backward`. -/
inductive AgentOp where
  | backwardOp (warmup_actor warmup_critic : ℕ)
  | backwardOfflineOp (fitActor fitCritic : Bool)
  | observe (obs act : List ℚ) (rew : ℚ) (obs1 : List ℚ) (dn : Bool)
      (step ep : ℕ) (training exploration : Bool)
deriving Repr

/-- One step of the interaction loop. -/
def runOp (cfg : AgentConfig) (o : Oracle) :
    AgentOp → AgentState → Option AgentState
  | .backwardOp wa wc, s => backward cfg o s wa wc
  | .backwardOfflineOp fa fc, s => backward_offline cfg o s fa fc
  | .observe obs act rew obs1 dn step ep training exploration, s =>
    some { s with
      observation := obs, action := act, reward := rew,
      observation1 := obs1, done := dn, trainingStep := step,
      episode := ep, training := training, exploration := exploration }

/-- A whole interaction trace. -/
def runOps (cfg : AgentConfig) (o : Oracle) :
    List AgentOp → AgentState → Option AgentState
  | [], s => some s
  | op :: ops, s =>
    match runOp cfg o op s with
    | none => none
    | some s1 => runOps cfg o ops s1

/-! Concrete fixtures used to evaluate the development on closed inputs. -/

/-- A concrete compute-engine oracle for a 1-dimensional action space. -/
def testOracle : Oracle where
  actorForward := fun _ states => states.map (fun _ => [7])
  criticForward := fun _ states _ => states.map (fun _ => 2)
  actorStep := fun _ _ _ => [2]
  criticStep := fun w _ _ _ => w.map (fun x => x + 10)
  actorGradNorm := fun _ _ _ => 0
  sample := fun _ _ => ⟨[[0]], [[0]], [1], [[0]], [false]⟩
  noiseSample := [1/2]
  loadW := fun p => [(p.length : ℚ)]

/-- `testOracle` with a critic forward pass of the wrong batch shape. -/
def testOracleBadQ : Oracle :=
  { testOracle with criticForward := fun _ _ _ => [] }

/-- `testOracle` with an empty exploration-noise sample. -/
def testOracleBadNoise : Oracle :=
  { testOracle with noiseSample := [] }

/-- A concrete agent state one step into episode 0, at the end of an
episode, with one stored checkpoint. -/
def testState : AgentState where
  actorW := [1]
  criticW := [3]
  targetActorW := [0]
  targetCriticW := [4]
  memory := []
  checkpoints := [([5], [6])]
  actorGradNormMetric := 99
  trainingStep := 1
  episode := 0
  observation := [0]
  action := [0]
  reward := 0
  observation1 := [0]
  done := true
  training := true
  exploration := false

/-- A concrete configuration with hard target updates of period 2 and the
reset-on-collapse feature enabled. -/
def testCfg : AgentConfig where
  gamma := 99/100
  batchSize := 1
  trainInterval := 1
  memoryInterval := 1
  targetActorUpdate := .hard 2
  targetCriticUpdate := .hard 2
  actorResetThreshold := 3/10
  resetControlers := true
  hasRandomProcess := false
  nbActions := 1
  actionsLow := [-1]
  actionsHigh := [1]

/-- `testCfg` with soft target updates of coefficient 1/2. -/
def testCfgSoft : AgentConfig :=
  { testCfg with targetActorUpdate := .soft (1/2),
                 targetCriticUpdate := .soft (1/2) }

/-- `testCfg` with the reset-on-collapse feature disabled. -/
def testCfgNoReset : AgentConfig := { testCfg with resetControlers := false }

/-- `testCfgSoft` with the reset-on-collapse feature disabled. -/
def testCfgSoftNoReset : AgentConfig :=
  { testCfgSoft with resetControlers := false }

/-- The transition `backward` appends from `testState`. -/
def testTransition : Experience := ⟨[0], [0], 0, [0], true⟩

/-- The state produced by `backward testCfgNoReset testOracle testState
0 200`: the transition is appended, the gradient-norm metric is captured and
the actor train op runs; the hard-update flags are false at step 1 with
period 2, so both targets are untouched. -/
def testResultNoReset : AgentState :=
  { testState with memory := [testTransition],
                   actorGradNormMetric := 0, actorW := [2] }

/-- The state produced by `backward testCfgSoftNoReset testOracle testState
0 200`: as `testResultNoReset`, followed by the soft blends
`(1/2)*0 + (1/2)*2` for the target actor and `(1/2)*4 + (1/2)*3` for the
target critic. -/
def testResultSoftNoReset : AgentState :=
  { testState with memory := [testTransition],
                   actorGradNormMetric := 0, actorW := [2],
                   targetActorW := [1], targetCriticW := [7/2] }

/-- The state produced by `backward testCfg testOracle testState 0 200`: the
rollback fires (done, episode 0 % 5 = 0, resets enabled, gradient norm
0 ≤ 3/10), restoring live and target actor from checkpoint 0. -/
def testResultRollback : AgentState :=
  { testState with memory := [testTransition],
                   actorGradNormMetric := 0, actorW := [5],
                   targetActorW := [5] }

/-- The state produced by `backward testCfgSoft testOracle testState 0 200`:
the rollback fires and resets live and target actor to the checkpoint value
[5]; the soft blends then leave the target actor at `(1/2)*5 + (1/2)*5 = 5`
and move the target critic to `(1/2)*4 + (1/2)*3 = 7/2`. -/
def testResultSoftRollback : AgentState :=
  { testState with memory := [testTransition],
                   actorGradNormMetric := 0, actorW := [5],
                   targetActorW := [5], targetCriticW := [7/2] }

/-- `testState` before `compile`: no checkpoint recorded yet. -/
def testStateNoCp : AgentState := { testState with checkpoints := [] }

/-- The fixed mini-batch returned by `testOracle.sample`. -/
def testBatch : Batch := ⟨[[0]], [[0]], [1], [[0]], [false]⟩

/-- `testCfg` with a declared action dimensionality of 2, mismatching the
1-dimensional output of `testOracle`'s actor. -/
def testCfgDim2 : AgentConfig := { testCfg with nbActions := 2 }

/-- The state produced by running `[.backwardOp 0 200]` from
`compile testStateNoCp` under `testCfg`: compile syncs the targets and
records checkpoint ([1], [3]); the backward call appends the transition and
the rollback restores live and target actor from that checkpoint. -/
def testResultTrace : AgentState :=
  { testState with checkpoints := [([1], [3])], memory := [testTransition],
                   actorGradNormMetric := 0, actorW := [1],
                   targetActorW := [1], targetCriticW := [3] }

/-- Observer: the number of memory appends performed over `n` consecutive
training steps starting at step `t` with memory interval `mi`. -/
def countAppends (mi t : ℕ) : ℕ → ℕ
  | 0 => 0
  | n + 1 => (if t % mi = 0 then 1 else 0) + countAppends mi (t + 1) n

/-- `testCfg` with memory interval 2. -/
def testCfgMem2 : AgentConfig := { testCfg with memoryInterval := 2 }

/-- `testState` at training step 4, mid-episode. -/
def testStateStep4 : AgentState :=
  { testState with trainingStep := 4, done := false }

/-- `testState` with training mode off. -/
def testStateNoTrain : AgentState := { testState with training := false }

/-- `testCfg` with hard target updates of period 1. -/
def testCfgTau1 : AgentConfig :=
  { testCfg with targetActorUpdate := .hard 1, targetCriticUpdate := .hard 1 }

/-- The state produced by `backward testCfgTau1 testOracle testState 0 200`:
the rollback restores the actor from checkpoint 0, then both period-1 hard
updates overwrite the targets with the live networks. -/
def testResultTau1 : AgentState :=
  { testState with memory := [testTransition],
                   actorGradNormMetric := 0, actorW := [5],
                   targetActorW := [5], targetCriticW := [3] }

/-! Structural lemmas about the fit pipeline. -/

theorem memoryStep_actorW (cfg : AgentConfig) (s : AgentState) :
    (memoryStep cfg s).actorW = s.actorW := by
  unfold memoryStep; split <;> rfl

theorem memoryStep_criticW (cfg : AgentConfig) (s : AgentState) :
    (memoryStep cfg s).criticW = s.criticW := by
  unfold memoryStep; split <;> rfl

theorem memoryStep_targetActorW (cfg : AgentConfig) (s : AgentState) :
    (memoryStep cfg s).targetActorW = s.targetActorW := by
  unfold memoryStep; split <;> rfl

theorem memoryStep_targetCriticW (cfg : AgentConfig) (s : AgentState) :
    (memoryStep cfg s).targetCriticW = s.targetCriticW := by
  unfold memoryStep; split <;> rfl

theorem memoryStep_checkpoints (cfg : AgentConfig) (s : AgentState) :
    (memoryStep cfg s).checkpoints = s.checkpoints := by
  unfold memoryStep; split <;> rfl

theorem memoryStep_trainingStep (cfg : AgentConfig) (s : AgentState) :
    (memoryStep cfg s).trainingStep = s.trainingStep := by
  unfold memoryStep; split <;> rfl

theorem memoryStep_episode (cfg : AgentConfig) (s : AgentState) :
    (memoryStep cfg s).episode = s.episode := by
  unfold memoryStep; split <;> rfl

theorem memoryStep_done (cfg : AgentConfig) (s : AgentState) :
    (memoryStep cfg s).done = s.done := by
  unfold memoryStep; split <;> rfl

theorem memoryStep_training (cfg : AgentConfig) (s : AgentState) :
    (memoryStep cfg s).training = s.training := by
  unfold memoryStep; split <;> rfl

theorem memoryStep_memory (cfg : AgentConfig) (s : AgentState) :
    (memoryStep cfg s).memory =
      if s.trainingStep % cfg.memoryInterval = 0 then
        s.memory ++ [⟨s.observation, s.action, s.reward, s.observation1, s.done⟩]
      else s.memory := by
  unfold memoryStep; split <;> simp_all

theorem fit_critic_some {cfg : AgentConfig} {o : Oracle} {s : AgentState}
    {batch : Batch} {s' : AgentState}
    (h : fit_critic cfg o s batch = some s') :
    s' = { s with
      criticW := o.criticStep s.criticW batch.state0 batch.action
        (criticTargets cfg.gamma batch.reward
          (o.criticForward s.targetCriticW batch.state1
            (o.actorForward s.targetActorW batch.state1))) } := by
  simp only [fit_critic] at h
  split at h
  · exact (Option.some.inj h).symm
  · exact absurd h (by simp)

theorem restore_checkpoint_actor_some {s s' : AgentState}
    (h : restore_checkpoint s true false 0 = some s') :
    ∃ wa wc, s.checkpoints.get? 0 = some (wa, wc) ∧
      s' = { s with actorW := wa, targetActorW := wa } := by
  unfold restore_checkpoint at h
  cases hc : s.checkpoints.get? 0 with
  | none => rw [hc] at h; exact absurd h (by simp)
  | some p =>
    rw [hc] at h
    simp only [if_pos, if_neg, Bool.false_eq_true, not_false_iff] at h
    exact ⟨p.1, p.2, rfl, (Option.some.inj h).symm⟩

theorem fit_actor_some {cfg : AgentConfig} {o : Oracle} {s : AgentState}
    {batch : Batch} {can : Bool} {s' : AgentState}
    (h : fit_actor cfg o s batch can = some s') :
    (can = true ∧ rollback_condition cfg o s batch = true ∧
      ∃ wa wc, s.checkpoints.get? 0 = some (wa, wc) ∧
        s' = { s with
          actorGradNormMetric := o.actorGradNorm s.actorW s.criticW batch.state0,
          actorW := wa, targetActorW := wa }) ∨
    ((can = false ∨ rollback_condition cfg o s batch = false) ∧
      s' = { s with
        actorGradNormMetric := o.actorGradNorm s.actorW s.criticW batch.state0,
        actorW := o.actorStep s.actorW s.criticW batch.state0 }) := by
  unfold fit_actor at h
  cases can with
  | false =>
    right
    exact ⟨Or.inl rfl, (Option.some.inj (by simpa using h)).symm⟩
  | true =>
    simp only [if_pos] at h
    by_cases hg : o.actorGradNorm s.actorW s.criticW batch.state0 ≤
        cfg.actorResetThreshold
    · left
      rw [if_pos hg] at h
      obtain ⟨wa, wc, hcp, hs⟩ := restore_checkpoint_actor_some h
      refine ⟨rfl, by simp [rollback_condition, hg], wa, wc, by simpa using hcp, ?_⟩
      rw [hs]
    · right
      rw [if_neg hg] at h
      exact ⟨Or.inr (by simp [rollback_condition, hg]),
        (Option.some.inj h).symm⟩

theorem apply_target_updates_actorW (cfg : AgentConfig) (s : AgentState)
    (hutc huta : Bool) :
    (apply_target_updates cfg s hutc huta).actorW = s.actorW := rfl

theorem apply_target_updates_criticW (cfg : AgentConfig) (s : AgentState)
    (hutc huta : Bool) :
    (apply_target_updates cfg s hutc huta).criticW = s.criticW := rfl

theorem apply_target_updates_targetActorW (cfg : AgentConfig) (s : AgentState)
    (hutc huta : Bool) :
    (apply_target_updates cfg s hutc huta).targetActorW =
      target_update_step cfg.targetActorUpdate huta s.targetActorW s.actorW :=
  rfl

theorem apply_target_updates_targetCriticW (cfg : AgentConfig)
    (s : AgentState) (hutc huta : Bool) :
    (apply_target_updates cfg s hutc huta).targetCriticW =
      target_update_step cfg.targetCriticUpdate hutc s.targetCriticW
        s.criticW := rfl

theorem apply_target_updates_memory (cfg : AgentConfig) (s : AgentState)
    (hutc huta : Bool) :
    (apply_target_updates cfg s hutc huta).memory = s.memory := rfl

theorem apply_target_updates_checkpoints (cfg : AgentConfig) (s : AgentState)
    (hutc huta : Bool) :
    (apply_target_updates cfg s hutc huta).checkpoints = s.checkpoints := rfl

theorem run_fits_some {cfg : AgentConfig} {o : Oracle} {s : AgentState}
    {batch : Batch} {fc fa can : Bool} {s2 : AgentState}
    (h : run_fits cfg o s batch fc fa can = some s2) :
    s2.targetCriticW = s.targetCriticW ∧
    s2.memory = s.memory ∧
    s2.checkpoints = s.checkpoints ∧
    s2.trainingStep = s.trainingStep ∧
    s2.episode = s.episode ∧
    s2.done = s.done ∧
    s2.training = s.training ∧
    (fits_rollback_fires cfg o s batch fc fa can = true →
      ∃ wa wc, s.checkpoints.get? 0 = some (wa, wc) ∧
        s2.actorW = wa ∧ s2.targetActorW = wa) ∧
    (fits_rollback_fires cfg o s batch fc fa can = false →
      s2.targetActorW = s.targetActorW) := by
  unfold run_fits at h
  unfold fits_rollback_fires
  cases hc : (if fc then fit_critic cfg o s batch else some s) with
  | none => rw [hc] at h; exact absurd h (by simp)
  | some s1 =>
    rw [hc] at h
    simp only [Option.some_bind] at h
    have hfields : s1.targetCriticW = s.targetCriticW ∧
        s1.memory = s.memory ∧ s1.checkpoints = s.checkpoints ∧
        s1.trainingStep = s.trainingStep ∧ s1.episode = s.episode ∧
        s1.done = s.done ∧ s1.training = s.training ∧
        s1.actorW = s.actorW ∧ s1.targetActorW = s.targetActorW := by
      cases fc with
      | false =>
        simp only [Bool.false_eq_true, if_neg, if_false] at hc
        rw [← Option.some.inj hc]
        exact ⟨rfl, rfl, rfl, rfl, rfl, rfl, rfl, rfl, rfl⟩
      | true =>
        rw [if_pos rfl] at hc
        rw [fit_critic_some hc]
        exact ⟨rfl, rfl, rfl, rfl, rfl, rfl, rfl, rfl, rfl⟩
    obtain ⟨h1, h2, h3, h4, h5, h6, h7, h8, h9⟩ := hfields
    cases fa with
    | false =>
      simp only [Bool.false_eq_true, if_neg, if_false] at h
      rw [← Option.some.inj h]
      simp only [Bool.false_and, Bool.and_self_left]
      exact ⟨h1, h2, h3, h4, h5, h6, h7, fun hff => by simp at hff,
        fun _ => h9⟩
    | true =>
      rw [if_pos rfl] at h
      rcases fit_actor_some h with
        ⟨hcan, hcond, wa, wc, hcp, hs2⟩ | ⟨hnot, hs2⟩
      · subst hs2
        refine ⟨h1, h2, h3, h4, h5, h6, h7, fun _ => ?_, fun hff => ?_⟩
        · exact ⟨wa, wc, h3 ▸ hcp, rfl, rfl⟩
        · simp [hcan, hcond] at hff
      · subst hs2
        refine ⟨h1, h2, h3, h4, h5, h6, h7, fun htt => ?_, fun _ => h9⟩
        rcases hnot with hcf | hcf <;> simp [hcf] at htt

theorem fit_controllers_some {cfg : AgentConfig} {o : Oracle}
    {s : AgentState} {fc fa can hutc huta : Bool} {s' : AgentState}
    (h : fit_controllers cfg o s fc fa can hutc huta = some s') :
    (¬ (fa = true ∨ fc = true) ∧ s' = s) ∨
    ((fa = true ∨ fc = true) ∧ ∃ s2,
      run_fits cfg o s (o.sample s.memory cfg.batchSize) fc fa can = some s2 ∧
      s' = apply_target_updates cfg s2 hutc huta) := by
  unfold fit_controllers at h
  split at h
  · left; exact ⟨by assumption, (Option.some.inj h).symm⟩
  · right
    rename_i hcond
    refine ⟨not_not.mp hcond, ?_⟩
    cases hr : run_fits cfg o s (o.sample s.memory cfg.batchSize) fc fa can with
    | none => rw [hr] at h; exact absurd h (by simp)
    | some s2 =>
      rw [hr] at h
      exact ⟨s2, rfl, (Option.some.inj (by simpa using h)).symm⟩

theorem backward_some {cfg : AgentConfig} {o : Oracle} {s : AgentState}
    {wa wc : ℕ} {s' : AgentState} (ht : s.training = true)
    (h : backward cfg o s wa wc = some s') :
    (backwardFits cfg s wa wc = false ∧ s' = memoryStep cfg s) ∨
    (backwardFits cfg s wa wc = true ∧
      fit_controllers cfg o (memoryStep cfg s)
        (decide (s.trainingStep > wc)) (decide (s.trainingStep > wa))
        (canResetActor cfg (memoryStep cfg s))
        (hardUpdateFlag cfg.targetCriticUpdate s.trainingStep)
        (hardUpdateFlag cfg.targetActorUpdate s.trainingStep) = some s') := by
  unfold backward at h
  rw [if_neg (by simp [ht])] at h
  simp only [memoryStep_trainingStep] at h
  by_cases h1 : s.trainingStep % cfg.trainInterval = 0
  · rw [if_pos h1] at h
    by_cases h2 : (decide (s.trainingStep > wa) = true ∨
        decide (s.trainingStep > wc) = true)
    · rw [if_pos h2] at h
      right
      refine ⟨?_, h⟩
      simp only [backwardFits, ht, Bool.true_and, decide_eq_true_eq]
      simp only [decide_eq_true_eq] at h2
      simp [h1, h2.imp id id]
    · rw [if_neg h2] at h
      left
      refine ⟨?_, (Option.some.inj h).symm⟩
      simp only [decide_eq_true_eq, not_or] at h2
      simp [backwardFits, h1, h2.1, h2.2]
  · rw [if_neg h1] at h
    left
    refine ⟨?_, (Option.some.inj h).symm⟩
    simp [backwardFits, h1]

theorem backward_eq (cfg : AgentConfig) (o : Oracle) (s : AgentState)
    (wa wc : ℕ) (ht : s.training = true) :
    backward cfg o s wa wc =
      if s.trainingStep % cfg.trainInterval = 0 ∧
          (wa < s.trainingStep ∨ wc < s.trainingStep) then
        fit_controllers cfg o (memoryStep cfg s)
          (decide (s.trainingStep > wc)) (decide (s.trainingStep > wa))
          (canResetActor cfg (memoryStep cfg s))
          (hardUpdateFlag cfg.targetCriticUpdate s.trainingStep)
          (hardUpdateFlag cfg.targetActorUpdate s.trainingStep)
      else some (memoryStep cfg s) := by
  unfold backward
  rw [if_neg (by simp [ht])]
  simp only [memoryStep_trainingStep]
  by_cases h1 : s.trainingStep % cfg.trainInterval = 0
  · rw [if_pos h1]
    by_cases h2 : (decide (s.trainingStep > wa) = true ∨
        decide (s.trainingStep > wc) = true)
    · rw [if_pos h2, if_pos]
      refine ⟨h1, ?_⟩
      simpa [gt_iff_lt] using h2
    · rw [if_neg h2, if_neg]
      intro hcon
      exact h2 (by simpa [gt_iff_lt] using hcon.2)
  · rw [if_neg h1, if_neg (fun hcon => h1 hcon.1)]

theorem backward_noFit {cfg : AgentConfig} {o : Oracle} {s : AgentState}
    {wa wc : ℕ} (ht : s.training = true)
    (hno : ¬ (s.trainingStep % cfg.trainInterval = 0 ∧
      (wa < s.trainingStep ∨ wc < s.trainingStep))) :
    backward cfg o s wa wc = some (memoryStep cfg s) := by
  rw [backward_eq cfg o s wa wc ht, if_neg hno]

theorem get_soft_target_model_ops_self (tau : ℚ) (w : List ℚ) :
    get_soft_target_model_ops tau w w = w := by
  induction w with
  | nil => rfl
  | cons a as ih =>
    simp only [get_soft_target_model_ops, List.zipWith_cons_cons] at ih ⊢
    rw [ih]
    congr 1
    ring

theorem np_clip_length : ∀ x low high : List ℚ,
    (np_clip x low high).length =
      min x.length (min low.length high.length) := by
  intro x
  induction x with
  | nil => intro low high; simp [np_clip]
  | cons a as ih =>
    intro low high
    cases low with
    | nil => simp [np_clip]
    | cons l ls =>
      cases high with
      | nil => simp [np_clip]
      | cons h hs =>
        simp only [np_clip, List.length_cons, ih]
        omega

theorem np_clip_get? : ∀ (x low high : List ℚ) (i : ℕ) (v : ℚ),
    (np_clip x low high).get? i = some v →
    ∃ xi li hi, x.get? i = some xi ∧ low.get? i = some li ∧
      high.get? i = some hi ∧ v = min (max xi li) hi := by
  intro x
  induction x with
  | nil => intro low high i v hv; simp [np_clip] at hv
  | cons a as ih =>
    intro low high i v hv
    cases low with
    | nil => simp [np_clip] at hv
    | cons l ls =>
      cases high with
      | nil => simp [np_clip] at hv
      | cons h hs =>
        cases i with
        | zero =>
          simp only [np_clip, List.get?] at hv
          exact ⟨a, l, h, rfl, rfl, rfl, (Option.some.inj hv).symm⟩
        | succ n =>
          simp only [np_clip, List.get?] at hv
          exact ih ls hs n v hv

theorem memoryStep_memory_length (cfg : AgentConfig) (s : AgentState) :
    (memoryStep cfg s).memory.length =
      if s.trainingStep % cfg.memoryInterval = 0 then s.memory.length + 1
      else s.memory.length := by
  rw [memoryStep_memory]
  split <;> simp

theorem target_update_step_self (u : TargetUpdate) (flag : Bool)
    (w : List ℚ) : target_update_step u flag w w = w := by
  cases u with
  | hard n =>
    simp only [target_update_step]
    split <;> rfl
  | soft tau => exact get_soft_target_model_ops_self tau w

theorem backwardFits_true_iff (cfg : AgentConfig) (s : AgentState)
    (wa wc : ℕ) : backwardFits cfg s wa wc = true ↔
      (s.training = true ∧ s.trainingStep % cfg.trainInterval = 0 ∧
        (wa < s.trainingStep ∨ wc < s.trainingStep)) := by
  simp [backwardFits, gt_iff_lt, and_assoc]

theorem fit_controllers_checkpoints {cfg : AgentConfig} {o : Oracle}
    {s : AgentState} {fc fa can hutc huta : Bool} {s' : AgentState}
    (h : fit_controllers cfg o s fc fa can hutc huta = some s') :
    s'.checkpoints = s.checkpoints := by
  rcases fit_controllers_some h with ⟨_, rfl⟩ | ⟨_, s2, hrun, rfl⟩
  · rfl
  · rw [apply_target_updates_checkpoints]
    exact (run_fits_some hrun).2.2.1

theorem backward_checkpoints {cfg : AgentConfig} {o : Oracle}
    {s : AgentState} {wa wc : ℕ} {s' : AgentState}
    (h : backward cfg o s wa wc = some s') :
    s'.checkpoints = s.checkpoints := by
  by_cases ht : s.training = true
  · rcases backward_some ht h with ⟨_, rfl⟩ | ⟨_, hfc⟩
    · exact memoryStep_checkpoints cfg s
    · rw [fit_controllers_checkpoints hfc, memoryStep_checkpoints]
  · unfold backward at h
    rw [if_pos (by simpa using ht)] at h
    rw [← Option.some.inj h]

theorem backward_offline_checkpoints {cfg : AgentConfig} {o : Oracle}
    {s : AgentState} {fa fc : Bool} {s' : AgentState}
    (h : backward_offline cfg o s fa fc = some s') :
    s'.checkpoints = s.checkpoints := by
  simp only [backward_offline] at h
  split at h
  · rw [← Option.some.inj h]
  · split at h
    · split at h
      · exact fit_controllers_checkpoints h
      · rw [← Option.some.inj h]
    · rw [← Option.some.inj h]

theorem runOp_checkpoints {cfg : AgentConfig} {o : Oracle} {op : AgentOp}
    {s s' : AgentState} (h : runOp cfg o op s = some s') :
    s'.checkpoints = s.checkpoints := by
  cases op with
  | backwardOp wa wc => exact backward_checkpoints h
  | backwardOfflineOp fa fc => exact backward_offline_checkpoints h
  | observe obs act rew obs1 dn step ep training exploration =>
    rw [← Option.some.inj h]

theorem runOps_checkpoints {cfg : AgentConfig} {o : Oracle} :
    ∀ {ops : List AgentOp} {s s' : AgentState},
    runOps cfg o ops s = some s' → s'.checkpoints = s.checkpoints := by
  intro ops
  induction ops with
  | nil => intro s s' h; rw [← Option.some.inj h]
  | cons op rest ih =>
    intro s s' h
    simp only [runOps] at h
    cases hop : runOp cfg o op s with
    | none => rw [hop] at h; exact absurd h (by simp)
    | some s1 =>
      rw [hop] at h
      rw [ih h, runOp_checkpoints hop]

theorem backwardSteps_noFit_map (cfg : AgentConfig) (o : Oracle)
    (wa wc : ℕ) : ∀ (n : ℕ) (s : AgentState), s.training = true →
    s.trainingStep + n ≤ wa + 1 → s.trainingStep + n ≤ wc + 1 →
    (backwardSteps cfg o s wa wc n).map (fun t => t.memory.length) =
      some (s.memory.length +
        countAppends cfg.memoryInterval s.trainingStep n) := by
  intro n
  induction n with
  | zero => intro s ht hwa hwc; simp [backwardSteps, countAppends]
  | succ n ih =>
    intro s ht hwa hwc
    have hb : backward cfg o s wa wc = some (memoryStep cfg s) :=
      backward_noFit ht (by rintro ⟨h1, h2 | h2⟩ <;> omega)
    simp only [backwardSteps]
    rw [hb]
    have ih' := ih
      { memoryStep cfg s with
        trainingStep := (memoryStep cfg s).trainingStep + 1 }
      (by show (memoryStep cfg s).training = true
          rw [memoryStep_training]; exact ht)
      (by show (memoryStep cfg s).trainingStep + 1 + n ≤ wa + 1
          rw [memoryStep_trainingStep]; omega)
      (by show (memoryStep cfg s).trainingStep + 1 + n ≤ wc + 1
          rw [memoryStep_trainingStep]; omega)
    rw [ih']
    show some ((memoryStep cfg s).memory.length + _) = _
    rw [memoryStep_memory_length]
    simp only [memoryStep_trainingStep, countAppends]
    split <;> (congr 1; omega)

/-! Claim theorems. -/

/-- Claim C7: the target-update parameter validation fails with a
configuration error exactly when the parameter is negative; a parameter ≥ 1
is turned into the hard-update period given by its integer floor; a
parameter in [0, 1) is kept as the soft blend coefficient; consequently
every successfully processed parameter has a nonnegative value. -/
theorem c7_process_parameterization (param : ℚ) :
    ((∃ e, process_parameterization_variable param = .error e) ↔ param < 0) ∧
    (param ≥ 1 →
      process_parameterization_variable param =
        .ok (.hard param.floor.toNat) ∧
      (param.floor.toNat : ℤ) = param.floor) ∧
    (0 ≤ param → param < 1 →
      process_parameterization_variable param = .ok (.soft param)) ∧
    (∀ u, process_parameterization_variable param = .ok u →
      0 ≤ u.value) := by
  refine ⟨⟨?_, ?_⟩, ?_, ?_, ?_⟩
  · rintro ⟨e, he⟩
    by_contra hlt
    unfold process_parameterization_variable at he
    rw [if_neg hlt] at he
    split at he <;> simp at he
  · intro hlt
    exact ⟨_, by unfold process_parameterization_variable; rw [if_pos hlt]⟩
  · intro h1
    have h0 : ¬ param < 0 := by linarith
    constructor
    · unfold process_parameterization_variable
      rw [if_neg h0, if_pos h1]
    · have hfl : (1 : ℤ) ≤ param.floor :=
        Rat.le_floor.mpr (by exact_mod_cast h1)
      exact Int.toNat_of_nonneg (by omega)
  · intro h0 h1
    unfold process_parameterization_variable
    rw [if_neg (not_lt.mpr h0), if_neg (not_le.mpr h1)]
  · intro u hu
    unfold process_parameterization_variable at hu
    split at hu
    · simp at hu
    · split at hu
      · injection hu with h
        subst h
        simp only [TargetUpdate.value]
        exact_mod_cast Nat.zero_le _
      · injection hu with h
        subst h
        simp only [TargetUpdate.value]
        rename_i hneg _
        exact not_lt.mp hneg

/-- Claim C7 witness: parameter 3/2 is accepted as the hard period 1, and
parameter -1 is rejected. -/
theorem c7_process_parameterization_witness :
    ((3 : ℚ)/2 ≥ 1 ∧
      process_parameterization_variable (3/2) =
        .ok (.hard ((3 : ℚ)/2).floor.toNat)) ∧
    ((-1 : ℚ) < 0 ∧
      ∃ e, process_parameterization_variable (-1) = .error e) :=
  ⟨⟨by norm_num, ((c7_process_parameterization (3/2)).2.1 (by norm_num)).1⟩,
   ⟨by norm_num, (c7_process_parameterization (-1)).1.mpr (by norm_num)⟩⟩

/-- Claim C1: in `fit_critic` the regression target of every sample equals
reward + gamma * targetQ: the per-sample formula holds, exactly this target
list is fed to the critic train op, the computation never reads the
terminal flags, and the concrete scenario gives 1.0 + 0.99 * 2.0 = 2.98. -/
theorem c1_critic_td_target :
    (∀ (gamma : ℚ) (rewards qs : List ℚ) (i : ℕ) (r q : ℚ),
      rewards.get? i = some r → qs.get? i = some q →
      (criticTargets gamma rewards qs).get? i = some (r + gamma * q)) ∧
    (∀ (cfg : AgentConfig) (o : Oracle) (s : AgentState) (batch : Batch)
      (s' : AgentState), fit_critic cfg o s batch = some s' →
      s'.criticW = o.criticStep s.criticW batch.state0 batch.action
        (criticTargets cfg.gamma batch.reward
          (o.criticForward s.targetCriticW batch.state1
            (o.actorForward s.targetActorW batch.state1)))) ∧
    (∀ (cfg : AgentConfig) (o : Oracle) (s : AgentState) (batch : Batch)
      (ts : List Bool),
      fit_critic cfg o s { batch with terminal1 := ts } =
        fit_critic cfg o s batch) ∧
    criticTargets (99/100) [1] [2] = [298/100] := by
  refine ⟨?_, ?_, ?_, ?_⟩
  · intro gamma rewards qs i r q hr hq
    simp only [List.get?_eq_getElem?] at hr hq
    simp [criticTargets, List.getElem?_zipWith', hr, hq]
  · intro cfg o s batch s' h
    rw [fit_critic_some h]
  · intro cfg o s batch ts
    cases batch
    rfl
  · norm_num [criticTargets]

/-- Claim C1 witness: the per-sample formula evaluated at reward 1, target Q
2 and gamma 0.99. -/
theorem c1_critic_td_target_witness :
    ([(1 : ℚ)].get? 0 = some 1) ∧ ([(2 : ℚ)].get? 0 = some 2) ∧
    (criticTargets (99/100) [1] [2]).get? 0 = some (1 + (99/100) * 2) :=
  ⟨rfl, rfl, c1_critic_td_target.1 (99/100) [1] [2] 0 1 2 rfl rfl⟩

/-- Claim C8: `load_weights` reads the actor and critic live weights from
the two role-suffixed files derived from the base path by `splitext`, and
immediately hard-synchronizes both target networks to the loaded live
networks. -/
theorem c8_load_weights (o : Oracle) (s : AgentState) (filepath : String) :
    ((load_weights o s filepath).2.1 =
      (splitext filepath).1 ++ "_actor" ++ (splitext filepath).2) ∧
    ((load_weights o s filepath).2.2 =
      (splitext filepath).1 ++ "_critic" ++ (splitext filepath).2) ∧
    ((load_weights o s filepath).1.actorW =
      o.loadW ((load_weights o s filepath).2.1)) ∧
    ((load_weights o s filepath).1.criticW =
      o.loadW ((load_weights o s filepath).2.2)) ∧
    ((load_weights o s filepath).1.targetActorW =
      (load_weights o s filepath).1.actorW) ∧
    ((load_weights o s filepath).1.targetCriticW =
      (load_weights o s filepath).1.criticW) :=
  ⟨rfl, rfl, rfl, rfl, rfl, rfl⟩

theorem np_clip_bounds {n : ℕ} (x low high : List ℚ) (hx : x.length = n)
    (hl : low.length = n) (hh : high.length = n)
    (hb : ∀ i l h, low.get? i = some l → high.get? i = some h → l ≤ h) :
    (np_clip x low high).length = n ∧
    ∀ i v l h, (np_clip x low high).get? i = some v →
      low.get? i = some l → high.get? i = some h → l ≤ v ∧ v ≤ h := by
  constructor
  · rw [np_clip_length, hx, hl, hh]
    omega
  · intro i v l h hv hlg hhg
    obtain ⟨xi, li, hi, hxi, hli, hhi, hveq⟩ := np_clip_get? x low high i v hv
    have hl1 : li = l := by rw [hli] at hlg; exact Option.some.inj hlg
    have hh1 : hi = h := by rw [hhi] at hhg; exact Option.some.inj hhg
    subst hl1; subst hh1; subst hveq
    have hlh : li ≤ hi := hb i li hi hli hhi
    exact ⟨le_min (le_max_right xi li) hlh, min_le_right _ _⟩

/-- Claim C6: every action returned by `select_action` has length equal to
the declared action dimensionality and lies componentwise within the
declared bounds [low, high]; any raw output (noise included) outside the
bounds is clamped into them. -/
theorem c6_select_action_clipped (cfg : AgentConfig) (o : Oracle)
    (s : AgentState) (state a : List ℚ)
    (hll : cfg.actionsLow.length = cfg.nbActions)
    (hhl : cfg.actionsHigh.length = cfg.nbActions)
    (hb : ∀ i l h, cfg.actionsLow.get? i = some l →
      cfg.actionsHigh.get? i = some h → l ≤ h)
    (hsel : select_action cfg o s state = some a) :
    a.length = cfg.nbActions ∧
    ∀ i x l h, a.get? i = some x → cfg.actionsLow.get? i = some l →
      cfg.actionsHigh.get? i = some h → l ≤ x ∧ x ≤ h := by
  simp only [select_action] at hsel
  split at hsel
  case h_1 => exact absurd hsel (by simp)
  case h_2 act hh =>
    split at hsel
    case isFalse => exact absurd hsel (by simp)
    case isTrue hlen =>
      have hmain : ∃ act2 : List ℚ, act2.length = cfg.nbActions ∧
          a = np_clip act2 cfg.actionsLow cfg.actionsHigh := by
        split at hsel
        case h_1 => exact absurd hsel (by simp)
        case h_2 act2 heq =>
          refine ⟨act2, ?_, (Option.some.inj hsel).symm⟩
          split at heq
          · split at heq
            · rename_i hnl
              rw [← Option.some.inj heq, List.length_zipWith, hnl, hlen]
              omega
            · exact absurd heq (by simp)
          · rw [← Option.some.inj heq]
            exact hlen
      obtain ⟨act2, hlen2, ha⟩ := hmain
      subst ha
      exact np_clip_bounds act2 cfg.actionsLow cfg.actionsHigh hlen2 hll
        hhl hb

/-- Claim C6 witness: from `testState`, the raw actor output 7 exceeds the
bound 1 and the returned action is the clipped vector [1], of length 1. -/
theorem c6_select_action_clipped_witness :
    select_action testCfg testOracle testState [0] = some [1] ∧
    ([1] : List ℚ).length = testCfg.nbActions ∧
    (∀ i x l h, ([1] : List ℚ).get? i = some x →
      testCfg.actionsLow.get? i = some l →
      testCfg.actionsHigh.get? i = some h → l ≤ x ∧ x ≤ h) := by
  have hsel : select_action testCfg testOracle testState [0] = some [1] := rfl
  have hb : ∀ i l h, testCfg.actionsLow.get? i = some l →
      testCfg.actionsHigh.get? i = some h → l ≤ h := by
    intro i l h hl hh
    cases i with
    | zero =>
      simp only [testCfg, List.get?] at hl hh
      rw [← Option.some.inj hl, ← Option.some.inj hh]
      norm_num
    | succ n => simp [testCfg] at hl
  have hmain := c6_select_action_clipped testCfg testOracle testState
    [0] [1] rfl rfl hb hsel
  exact ⟨hsel, hmain.1, hmain.2⟩

/-- Claim C9 (amended): the action-shape and noise-shape assertions in
`select_action` and the target-action-shape assertion in `fit_critic` are
fatal at the point of mismatch; the target-Q batch shape, however, is not
asserted (the corresponding assertion at line 540 of the source is commented
out), so `fit_critic` succeeds whenever the target-action assertion passes,
regardless of the target-Q shape. -/
theorem c9_shape_assertions :
    (∀ (cfg : AgentConfig) (o : Oracle) (s : AgentState) (state act : List ℚ),
      (o.actorForward s.actorW [state]).head? = some act →
      act.length ≠ cfg.nbActions → select_action cfg o s state = none) ∧
    (∀ (cfg : AgentConfig) (o : Oracle) (s : AgentState) (state act : List ℚ),
      (o.actorForward s.actorW [state]).head? = some act →
      act.length = cfg.nbActions → s.exploration = true →
      cfg.hasRandomProcess = true → o.noiseSample.length ≠ act.length →
      select_action cfg o s state = none) ∧
    (∀ (cfg : AgentConfig) (o : Oracle) (s : AgentState) (batch : Batch),
      ¬ ((o.actorForward s.targetActorW batch.state1).length = cfg.batchSize ∧
        ∀ act ∈ o.actorForward s.targetActorW batch.state1,
          act.length = cfg.nbActions) →
      fit_critic cfg o s batch = none) ∧
    (∀ (cfg : AgentConfig) (o : Oracle) (s : AgentState) (batch : Batch),
      ((o.actorForward s.targetActorW batch.state1).length = cfg.batchSize ∧
        ∀ act ∈ o.actorForward s.targetActorW batch.state1,
          act.length = cfg.nbActions) →
      (fit_critic cfg o s batch).isSome = true) := by
  refine ⟨?_, ?_, ?_, ?_⟩
  · intro cfg o s state act hh hlen
    simp only [select_action]
    rw [hh]
    dsimp only
    rw [if_neg hlen]
  · intro cfg o s state act hh hlen hexp hrp hnl
    simp only [select_action]
    rw [hh]
    dsimp only
    rw [if_pos hlen, if_pos ⟨hexp, hrp⟩, if_neg hnl]
  · intro cfg o s batch hshape
    simp only [fit_critic]
    rw [if_neg hshape]
  · intro cfg o s batch hshape
    simp only [fit_critic]
    rw [if_pos hshape]
    rfl

/-- Claim C9 witness: the existing assertions fire on concrete mismatches:
a 1-dimensional actor output against a declared dimensionality of 2 kills
`select_action`, and a batch-size mismatch of the target actions kills
`fit_critic`. -/
theorem c9_shape_assertions_witness :
    ((testOracle.actorForward testState.actorW [[0]]).head? = some [7] ∧
      ([7] : List ℚ).length ≠ testCfgDim2.nbActions ∧
      select_action testCfgDim2 testOracle testState [0] = none) ∧
    (¬ ((testOracle.actorForward testState.targetActorW
          testBatch.state1).length = testCfgDim2.batchSize ∧
        ∀ act ∈ testOracle.actorForward testState.targetActorW
          testBatch.state1, act.length = testCfgDim2.nbActions) ∧
      fit_critic testCfgDim2 testOracle testState testBatch = none) :=
  ⟨⟨rfl, by simp [testCfgDim2, testCfg],
    c9_shape_assertions.1 testCfgDim2 testOracle testState [0] [7] rfl
      (by simp [testCfgDim2, testCfg])⟩,
   ⟨by simp [testCfgDim2, testCfg, testOracle, testBatch],
    c9_shape_assertions.2.2.1 testCfgDim2 testOracle testState testBatch
      (by simp [testCfgDim2, testCfg, testOracle, testBatch])⟩⟩

/-- Claim C9 counterexample: a target-critic output of the wrong batch shape
(empty, against batch size 1) does not trip any assertion: `fit_critic`
succeeds, so the claimed target-Q shape assertion does not exist. -/
theorem c9_counterexample :
    (testOracleBadQ.criticForward testState.targetCriticW testBatch.state1
        (testOracleBadQ.actorForward testState.targetActorW
          testBatch.state1)).length ≠ testCfg.batchSize ∧
    (fit_critic testCfg testOracleBadQ testState testBatch).isSome = true :=
  ⟨by simp [testOracleBadQ, testOracle, testCfg], rfl⟩

/-- Claim C5: `backward` is a no-op when not training; when training it
appends the just-observed transition to the replay buffer exactly on steps
where trainingStep % memoryInterval = 0; the fit routine is reached exactly
on steps where trainingStep % trainInterval = 0 with at least one fit flag
set; and with memory_interval = 2, four consecutive calls append exactly
two transitions. -/
theorem c5_backward_cadence :
    (∀ (cfg : AgentConfig) (o : Oracle) (s : AgentState) (wa wc : ℕ),
      s.training = false → backward cfg o s wa wc = some s) ∧
    (∀ (cfg : AgentConfig) (o : Oracle) (s : AgentState) (wa wc : ℕ)
      (s' : AgentState), s.training = true →
      backward cfg o s wa wc = some s' →
      (s.trainingStep % cfg.memoryInterval = 0 →
        s'.memory = s.memory ++
          [⟨s.observation, s.action, s.reward, s.observation1, s.done⟩]) ∧
      (s.trainingStep % cfg.memoryInterval ≠ 0 → s'.memory = s.memory)) ∧
    (∀ (cfg : AgentConfig) (o : Oracle) (s : AgentState) (wa wc : ℕ),
      s.training = true →
      ¬ (s.trainingStep % cfg.trainInterval = 0 ∧
        (wa < s.trainingStep ∨ wc < s.trainingStep)) →
      backward cfg o s wa wc = some (memoryStep cfg s)) ∧
    (∀ (cfg : AgentConfig) (o : Oracle) (s : AgentState) (wa wc : ℕ),
      s.training = true →
      s.trainingStep % cfg.trainInterval = 0 →
      (wa < s.trainingStep ∨ wc < s.trainingStep) →
      backward cfg o s wa wc =
        fit_controllers cfg o (memoryStep cfg s)
          (decide (s.trainingStep > wc)) (decide (s.trainingStep > wa))
          (canResetActor cfg (memoryStep cfg s))
          (hardUpdateFlag cfg.targetCriticUpdate s.trainingStep)
          (hardUpdateFlag cfg.targetActorUpdate s.trainingStep)) ∧
    (∀ (cfg : AgentConfig) (o : Oracle) (s : AgentState) (wa wc : ℕ),
      s.training = true → cfg.memoryInterval = 2 →
      s.trainingStep + 3 ≤ wa → s.trainingStep + 3 ≤ wc →
      (backwardSteps cfg o s wa wc 4).map (fun t => t.memory.length) =
        some (s.memory.length + 2)) := by
  refine ⟨?_, ?_, ?_, ?_, ?_⟩
  · intro cfg o s wa wc ht
    unfold backward
    rw [if_pos (by simp [ht])]
  · intro cfg o s wa wc s' ht hb
    have hmem : s'.memory = (memoryStep cfg s).memory := by
      rcases backward_some ht hb with ⟨_, rfl⟩ | ⟨_, hfc⟩
      · rfl
      · rcases fit_controllers_some hfc with ⟨_, rfl⟩ | ⟨_, s2, hrun, rfl⟩
        · rfl
        · rw [apply_target_updates_memory]
          exact (run_fits_some hrun).2.1
    rw [hmem, memoryStep_memory]
    constructor
    · intro hmi; rw [if_pos hmi]
    · intro hmi; rw [if_neg hmi]
  · intro cfg o s wa wc ht hno
    exact backward_noFit ht hno
  · intro cfg o s wa wc ht h1 h2
    rw [backward_eq cfg o s wa wc ht, if_pos ⟨h1, h2⟩]
  · intro cfg o s wa wc ht hmi hwa hwc
    rw [backwardSteps_noFit_map cfg o wa wc 4 s ht (by omega) (by omega)]
    congr 1
    rw [hmi]
    set t := s.trainingStep with hts
    by_cases h : t % 2 = 0
    · have e1 : (t + 1) % 2 ≠ 0 := by omega
      have e2 : (t + 2) % 2 = 0 := by omega
      have e3 : (t + 3) % 2 ≠ 0 := by omega
      simp [countAppends, h, e1, e2, e3]
    · have e1 : (t + 1) % 2 = 0 := by omega
      have e2 : (t + 2) % 2 ≠ 0 := by omega
      have e3 : (t + 3) % 2 = 0 := by omega
      simp [countAppends, h, e1, e2, e3]

/-- Claim C5 witness: over four consecutive calls from step 4 with memory
interval 2, exactly two transitions are appended; a non-training state is
untouched. -/
theorem c5_backward_cadence_witness :
    (testStateNoTrain.training = false ∧
      backward testCfg testOracle testStateNoTrain 0 200 =
        some testStateNoTrain) ∧
    (testStateStep4.training = true ∧ testCfgMem2.memoryInterval = 2 ∧
      (backwardSteps testCfgMem2 testOracle testStateStep4 300 300 4).map
          (fun t => t.memory.length) =
        some (testStateStep4.memory.length + 2)) :=
  ⟨⟨rfl, c5_backward_cadence.1 testCfg testOracle testStateNoTrain 0 200 rfl⟩,
   ⟨rfl, rfl,
    c5_backward_cadence.2.2.2.2 testCfgMem2 testOracle testStateStep4 300 300
      rfl rfl (by norm_num [testStateStep4, testState])
      (by norm_num [testStateStep4, testState])⟩⟩

/-- Claim C2 (amended): with integer hard-update periods, on a training call
the target critic is overwritten with the live critic exactly when
trainingStep mod τ = 0 and left unchanged otherwise; the same holds for the
target actor provided the gradient-collapse rollback does not fire on that
call (when it fires, the rollback itself rewrites the target actor to the
checkpoint parameters); with τ = 1, after one fitting call the target equals
the live network. -/
theorem c2_hard_target_update (cfg : AgentConfig) (o : Oracle)
    (s : AgentState) (wa wc n m : ℕ) (s' : AgentState)
    (ht : s.training = true)
    (hn : cfg.targetActorUpdate = .hard n)
    (hm : cfg.targetCriticUpdate = .hard m)
    (hb : backward cfg o s wa wc = some s') :
    (s'.targetCriticW =
      if backwardFits cfg s wa wc = true ∧ s.trainingStep % m = 0
      then s'.criticW else s.targetCriticW) ∧
    (backwardRollbackFires cfg o s wa wc = false →
      s'.targetActorW =
        if backwardFits cfg s wa wc = true ∧ s.trainingStep % n = 0
        then s'.actorW else s.targetActorW) ∧
    (backwardFits cfg s wa wc = true → n = 1 →
      s'.targetActorW = s'.actorW) ∧
    (backwardFits cfg s wa wc = true → m = 1 →
      s'.targetCriticW = s'.criticW) := by
  rcases backward_some ht hb with ⟨hfit, rfl⟩ | ⟨hfit, hfc⟩
  · refine ⟨?_, ?_, ?_, ?_⟩
    · rw [if_neg (by simp [hfit]), memoryStep_targetCriticW]
    · intro _
      rw [if_neg (by simp [hfit]), memoryStep_targetActorW]
    · intro hf; rw [hfit] at hf; exact absurd hf (by simp)
    · intro hf; rw [hfit] at hf; exact absurd hf (by simp)
  · obtain ⟨ht', h1, hflag⟩ := (backwardFits_true_iff cfg s wa wc).mp hfit
    rcases fit_controllers_some hfc with ⟨hnofit, _⟩ | ⟨_, s2, hrun, rfl⟩
    · exact absurd (hflag.imp (fun h => by simpa using h)
        (fun h => by simpa using h)) hnofit
    · obtain ⟨hTC, hMem, hCp, hSt, hEp, hDn, hTr, hRb, hNoRb⟩ :=
        run_fits_some hrun
      refine ⟨?_, ?_, ?_, ?_⟩
      · rw [apply_target_updates_targetCriticW, apply_target_updates_criticW,
          hm]
        simp only [target_update_step, hardUpdateFlag]
        rw [hTC, memoryStep_targetCriticW]
        by_cases hmm : s.trainingStep % m = 0 <;> simp [hmm, hfit]
      · intro hnr
        unfold backwardRollbackFires at hnr
        simp only [memoryStep_training, ht, memoryStep_trainingStep, h1,
          decide_True, Bool.true_and] at hnr
        have hta := hNoRb hnr
        rw [apply_target_updates_targetActorW, apply_target_updates_actorW,
          hn]
        simp only [target_update_step, hardUpdateFlag]
        rw [hta, memoryStep_targetActorW]
        by_cases hnn : s.trainingStep % n = 0 <;> simp [hnn, hfit]
      · intro _ hone
        subst hone
        rw [apply_target_updates_targetActorW, apply_target_updates_actorW,
          hn]
        simp [target_update_step, hardUpdateFlag, Nat.mod_one]
      · intro _ hone
        subst hone
        rw [apply_target_updates_targetCriticW, apply_target_updates_criticW,
          hm]
        simp [target_update_step, hardUpdateFlag, Nat.mod_one]

/-- Claim C2 counterexample: at training step 1 with hard period 2
(1 mod 2 ≠ 0), a fitting call on which the rollback fires rewrites the
target actor from [0] to the checkpoint value [5]: the target is not left
unchanged on a non-update step, contradicting the claim's "exactly when"
for the target actor. -/
theorem c2_hard_target_update_counterexample :
    backward testCfg testOracle testState 0 200 = some testResultRollback ∧
    testCfg.targetActorUpdate = .hard 2 ∧
    testState.training = true ∧
    backwardFits testCfg testState 0 200 = true ∧
    testState.trainingStep % 2 = 1 ∧
    testResultRollback.targetActorW ≠ testState.targetActorW := by
  refine ⟨?_, rfl, rfl, rfl, rfl, ?_⟩
  · norm_num [backward, memoryStep, fit_controllers, run_fits, fit_actor,
      fit_critic, restore_checkpoint, apply_target_updates,
      target_update_step, hardUpdateFlag, canResetActor, rollback_condition,
      get_soft_target_model_ops, criticTargets, testCfg, testState,
      testOracle, testResultRollback, testTransition]
  · simp [testResultRollback, testState]

/-- Claim C2 witness: with resets disabled (so the rollback cannot fire), at
step 1 with periods 2 neither target moves; and with period 1 both targets
equal the live networks after one fitting call. -/
theorem c2_hard_target_update_witness :
    (backwardRollbackFires testCfgNoReset testOracle testState 0 200 =
        false ∧
      backward testCfgNoReset testOracle testState 0 200 =
        some testResultNoReset ∧
      testResultNoReset.targetActorW = testState.targetActorW ∧
      testResultNoReset.targetCriticW = testState.targetCriticW) ∧
    (backward testCfgTau1 testOracle testState 0 200 =
        some testResultTau1 ∧
      testResultTau1.targetActorW = testResultTau1.actorW ∧
      testResultTau1.targetCriticW = testResultTau1.criticW) := by
  have hnr : backwardRollbackFires testCfgNoReset testOracle testState
      0 200 = false := by
    norm_num [backwardRollbackFires, fits_rollback_fires, memoryStep,
      canResetActor, fit_critic, rollback_condition, testCfgNoReset,
      testCfg, testState, testOracle]
  have hb1 : backward testCfgNoReset testOracle testState 0 200 =
      some testResultNoReset := by
    norm_num [backward, memoryStep, fit_controllers, run_fits, fit_actor,
      fit_critic, restore_checkpoint, apply_target_updates,
      target_update_step, hardUpdateFlag, canResetActor, rollback_condition,
      get_soft_target_model_ops, criticTargets, testCfgNoReset, testCfg,
      testState, testOracle, testResultNoReset, testTransition]
  have hb2 : backward testCfgTau1 testOracle testState 0 200 =
      some testResultTau1 := by
    norm_num [backward, memoryStep, fit_controllers, run_fits, fit_actor,
      fit_critic, restore_checkpoint, apply_target_updates,
      target_update_step, hardUpdateFlag, canResetActor, rollback_condition,
      get_soft_target_model_ops, criticTargets, testCfgTau1, testCfg,
      testState, testOracle, testResultTau1, testTransition]
  have hm1 := c2_hard_target_update testCfgNoReset testOracle testState
    0 200 2 2 testResultNoReset rfl rfl rfl hb1
  have hm2 := c2_hard_target_update testCfgTau1 testOracle testState
    0 200 1 1 testResultTau1 rfl rfl rfl hb2
  refine ⟨⟨hnr, hb1, ?_, ?_⟩, ⟨hb2, ?_, ?_⟩⟩
  · rw [hm1.2.1 hnr, if_neg (by norm_num [testState])]
  · rw [hm1.1, if_neg (by norm_num [testState])]
  · exact hm2.2.2.1 rfl rfl
  · exact hm2.2.2.2 rfl rfl

/-- Claim C3 (amended): with soft coefficients τ in [0,1), on every fitting
call — with no period gate — each target-network parameter satisfies
target_new = (1-τ)*target_old + τ*live, where live is the post-fit live
network; for the target actor this holds provided the gradient-collapse
rollback does not fire on that call (when it fires, live and target actor
are first reset to the checkpoint and the blend leaves them there). -/
theorem c3_soft_target_update (cfg : AgentConfig) (o : Oracle)
    (s : AgentState) (wa wc : ℕ) (ta tc : ℚ) (s' : AgentState)
    (ht : s.training = true)
    (hta : cfg.targetActorUpdate = .soft ta)
    (htc : cfg.targetCriticUpdate = .soft tc)
    (hfit : backwardFits cfg s wa wc = true)
    (hb : backward cfg o s wa wc = some s') :
    s'.targetCriticW =
      get_soft_target_model_ops tc s.targetCriticW s'.criticW ∧
    (backwardRollbackFires cfg o s wa wc = false →
      s'.targetActorW =
        get_soft_target_model_ops ta s.targetActorW s'.actorW) := by
  rcases backward_some ht hb with ⟨hf, _⟩ | ⟨_, hfc⟩
  · rw [hf] at hfit; exact absurd hfit (by simp)
  · obtain ⟨ht', h1, hflag⟩ := (backwardFits_true_iff cfg s wa wc).mp hfit
    rcases fit_controllers_some hfc with ⟨hnofit, _⟩ | ⟨_, s2, hrun, rfl⟩
    · exact absurd (hflag.imp (fun h => by simpa using h)
        (fun h => by simpa using h)) hnofit
    · obtain ⟨hTC, hMem, hCp, hSt, hEp, hDn, hTr, hRb, hNoRb⟩ :=
        run_fits_some hrun
      constructor
      · rw [apply_target_updates_targetCriticW,
          apply_target_updates_criticW, htc]
        simp only [target_update_step]
        rw [hTC, memoryStep_targetCriticW]
      · intro hnr
        unfold backwardRollbackFires at hnr
        simp only [memoryStep_training, ht, memoryStep_trainingStep, h1,
          decide_True, Bool.true_and] at hnr
        have hta2 := hNoRb hnr
        rw [apply_target_updates_targetActorW, apply_target_updates_actorW,
          hta]
        simp only [target_update_step]
        rw [hta2, memoryStep_targetActorW]

/-- Claim C3 counterexample: on a fitting call where the rollback fires, the
target actor ends at the checkpoint value [5], not at the blend
(1-τ)*target_old + τ*live = [5/2]: the claimed blend equation fails. -/
theorem c3_soft_target_update_counterexample :
    backward testCfgSoft testOracle testState 0 200 =
      some testResultSoftRollback ∧
    testCfgSoft.targetActorUpdate = .soft (1/2) ∧
    testState.training = true ∧
    backwardFits testCfgSoft testState 0 200 = true ∧
    testResultSoftRollback.targetActorW ≠
      get_soft_target_model_ops (1/2) testState.targetActorW
        testResultSoftRollback.actorW := by
  refine ⟨?_, rfl, rfl, rfl, ?_⟩
  · norm_num [backward, memoryStep, fit_controllers, run_fits, fit_actor,
      fit_critic, restore_checkpoint, apply_target_updates,
      target_update_step, hardUpdateFlag, canResetActor, rollback_condition,
      get_soft_target_model_ops, criticTargets, testCfgSoft, testCfg,
      testState, testOracle, testResultSoftRollback, testTransition]
  · norm_num [get_soft_target_model_ops, List.zipWith_cons_cons,
      testResultSoftRollback, testState]

/-- Claim C3 witness: with resets disabled, after one fitting call with
τ = 1/2 both targets are the soft blends of the old targets and the
post-fit live networks. -/
theorem c3_soft_target_update_witness :
    backwardRollbackFires testCfgSoftNoReset testOracle testState 0 200 =
      false ∧
    backward testCfgSoftNoReset testOracle testState 0 200 =
      some testResultSoftNoReset ∧
    testResultSoftNoReset.targetCriticW =
      get_soft_target_model_ops (1/2) testState.targetCriticW
        testResultSoftNoReset.criticW ∧
    testResultSoftNoReset.targetActorW =
      get_soft_target_model_ops (1/2) testState.targetActorW
        testResultSoftNoReset.actorW := by
  have hnr : backwardRollbackFires testCfgSoftNoReset testOracle testState
      0 200 = false := by
    norm_num [backwardRollbackFires, fits_rollback_fires, memoryStep,
      canResetActor, fit_critic, rollback_condition, testCfgSoftNoReset,
      testCfgSoft, testCfg, testState, testOracle]
  have hb : backward testCfgSoftNoReset testOracle testState 0 200 =
      some testResultSoftNoReset := by
    norm_num [backward, memoryStep, fit_controllers, run_fits, fit_actor,
      fit_critic, restore_checkpoint, apply_target_updates,
      target_update_step, hardUpdateFlag, canResetActor, rollback_condition,
      get_soft_target_model_ops, criticTargets, testCfgSoftNoReset,
      testCfgSoft, testCfg, testState, testOracle, testResultSoftNoReset,
      testTransition]
  have hm := c3_soft_target_update testCfgSoftNoReset testOracle testState
    0 200 (1/2) (1/2) testResultSoftNoReset rfl rfl rfl rfl hb
  exact ⟨hnr, hb, hm.1, hm.2 hnr⟩

/-- Claim C4: when an actor fit occurs on a call where the episode just
ended, episode mod 5 = 0, reset-on-collapse is enabled and the gradient-norm
metric captured before the optimizer step is at most the reset threshold
(the conjunction recorded by `backwardRollbackFires`), then after the call
both the live and the target actor weights equal the actor weights stored at
checkpoint index 0, and the checkpoint log is exactly unchanged. -/
theorem c4_rollback_restores (cfg : AgentConfig) (o : Oracle)
    (s : AgentState) (wa wc : ℕ) (s' : AgentState) (cpA cpC : List ℚ)
    (ht : s.training = true) (hd : s.done = true)
    (hep : s.episode % 5 = 0) (hrc : cfg.resetControlers = true)
    (hfire : backwardRollbackFires cfg o s wa wc = true)
    (hcp : s.checkpoints.get? 0 = some (cpA, cpC))
    (hb : backward cfg o s wa wc = some s') :
    s'.actorW = cpA ∧ s'.targetActorW = cpA ∧
    s'.checkpoints = s.checkpoints := by
  unfold backwardRollbackFires at hfire
  simp only [memoryStep_training, ht, memoryStep_trainingStep,
    Bool.true_and] at hfire
  rw [Bool.and_eq_true] at hfire
  obtain ⟨hcad, hfr⟩ := hfire
  have hfa : decide (s.trainingStep > wa) = true := by
    have hfr2 := hfr
    unfold fits_rollback_fires at hfr2
    rw [Bool.and_eq_true, Bool.and_eq_true] at hfr2
    exact hfr2.1.1
  have hfit : backwardFits cfg s wa wc = true := by
    rw [backwardFits_true_iff]
    exact ⟨ht, by simpa using hcad, Or.inl (by simpa using hfa)⟩
  rcases backward_some ht hb with ⟨hf, _⟩ | ⟨_, hfc⟩
  · rw [hf] at hfit; exact absurd hfit (by simp)
  · rcases fit_controllers_some hfc with ⟨hnofit, _⟩ | ⟨_, s2, hrun, rfl⟩
    · exact absurd (Or.inl hfa) hnofit
    · obtain ⟨hTC, hMem, hCp, hSt, hEp2, hDn, hTr, hRb, hNoRb⟩ :=
        run_fits_some hrun
      obtain ⟨wa', wc', hcp', ha, htaW⟩ := hRb hfr
      rw [memoryStep_checkpoints] at hcp'
      rw [hcp'] at hcp
      have h2 := Option.some.inj hcp
      rw [Prod.mk.injEq] at h2
      obtain ⟨rfl, rfl⟩ := h2
      refine ⟨?_, ?_, ?_⟩
      · rw [apply_target_updates_actorW, ha]
      · rw [apply_target_updates_targetActorW, ha, htaW,
          target_update_step_self]
      · rw [apply_target_updates_checkpoints, hCp, memoryStep_checkpoints]

/-- Claim C4 witness: from `testState` (end of episode 0, resets enabled,
gradient norm 0 ≤ 3/10), the call restores live and target actor to the
checkpoint-0 actor weights [5] and the checkpoint log is untouched. -/
theorem c4_rollback_restores_witness :
    backwardRollbackFires testCfg testOracle testState 0 200 = true ∧
    testState.checkpoints.get? 0 = some ([5], [6]) ∧
    backward testCfg testOracle testState 0 200 = some testResultRollback ∧
    testResultRollback.actorW = [5] ∧
    testResultRollback.targetActorW = [5] ∧
    testResultRollback.checkpoints = testState.checkpoints := by
  have hfire : backwardRollbackFires testCfg testOracle testState 0 200 =
      true := by
    norm_num [backwardRollbackFires, fits_rollback_fires, memoryStep,
      canResetActor, fit_critic, rollback_condition, testCfg, testState,
      testOracle]
  have hb : backward testCfg testOracle testState 0 200 =
      some testResultRollback := by
    norm_num [backward, memoryStep, fit_controllers, run_fits, fit_actor,
      fit_critic, restore_checkpoint, apply_target_updates,
      target_update_step, hardUpdateFlag, canResetActor, rollback_condition,
      get_soft_target_model_ops, criticTargets, testCfg, testState,
      testOracle, testResultRollback, testTransition]
  have hm := c4_rollback_restores testCfg testOracle testState 0 200
    testResultRollback [5] [6] rfl rfl rfl rfl hfire rfl hb
  exact ⟨hfire, rfl, hb, hm.1, hm.2.1, hm.2.2⟩

/-- Claim C10: the only checkpoint the agent records is the one taken at the
end of `compile`; over any interaction trace the checkpoint log stays
exactly that single compile-time snapshot, checkpoint index 0 holds the
compile-time parameters, and every actor rollback (which reads index 0)
restores the actor and its target to those initial actor weights. -/
theorem c10_checkpoint_log (cfg : AgentConfig) (o : Oracle)
    (ops : List AgentOp) (s0 s' : AgentState)
    (hinit : s0.checkpoints = [])
    (hrun : runOps cfg o ops (compile s0) = some s') :
    s'.checkpoints = [(s0.actorW, s0.criticW)] ∧
    s'.checkpoints.get? 0 = some (s0.actorW, s0.criticW) ∧
    (∀ t u : AgentState, t.checkpoints = s'.checkpoints →
      restore_checkpoint t true false 0 = some u →
      u.actorW = s0.actorW ∧ u.targetActorW = s0.actorW) := by
  have h1 : s'.checkpoints = [(s0.actorW, s0.criticW)] := by
    rw [runOps_checkpoints hrun]
    simp [compile, checkpoint, hinit]
  refine ⟨h1, by rw [h1]; rfl, ?_⟩
  intro t u htc hres
  obtain ⟨wa', wc', hcp, rfl⟩ := restore_checkpoint_actor_some hres
  rw [htc, h1] at hcp
  simp only [List.get?] at hcp
  have h2 := Option.some.inj hcp
  rw [Prod.mk.injEq] at h2
  obtain ⟨ha, hc⟩ := h2
  exact ⟨ha.symm, ha.symm⟩

/-- Claim C10 witness: compiling from an empty checkpoint log and running
one backward call (during which the rollback fires) leaves the log exactly
at the compile-time snapshot ([1], [3]). -/
theorem c10_checkpoint_log_witness :
    testStateNoCp.checkpoints = [] ∧
    runOps testCfg testOracle [.backwardOp 0 200] (compile testStateNoCp) =
      some testResultTrace ∧
    testResultTrace.checkpoints =
      [(testStateNoCp.actorW, testStateNoCp.criticW)] := by
  have hrun : runOps testCfg testOracle [.backwardOp 0 200]
      (compile testStateNoCp) = some testResultTrace := by
    norm_num [runOps, runOp, compile, checkpoint, backward, memoryStep,
      fit_controllers, run_fits, fit_actor, fit_critic, restore_checkpoint,
      apply_target_updates, target_update_step, hardUpdateFlag,
      canResetActor, rollback_condition, get_soft_target_model_ops,
      criticTargets, testCfg, testState, testStateNoCp, testOracle,
      testResultTrace, testTransition]
  exact ⟨rfl, hrun, (c10_checkpoint_log testCfg testOracle
    [.backwardOp 0 200] testStateNoCp testResultTrace rfl hrun).1⟩

end DDPG
